import Mathlib

/-!
Shallow embedding of the filter-predicate engine of `main.py`
(`passes_numeric_filter`, `fuzzy_match`, `get_column_value`,
`filter_students`, `normalize_filters`, `repair_llm_filters`),
together with theorems checking the specification's claims.

Python values appearing in records and filter sets are modelled by
`PyVal` (strings, ints, lists of strings, and `None`); Python dicts are
modelled as insertion-ordered association lists; Python code that can
raise (`HTTPException`, `TypeError`/`AttributeError`) is modelled with
`Except`.
-/

namespace Mentorly

/-- Model of the Python values stored in records and filter sets:
`None`, strings, ints, and lists of strings (the only list shape the
program itself constructs). -/
inductive PyVal where
  | none
  | str (s : String)
  | int (n : Int)
  | list (xs : List String)
deriving DecidableEq, Repr

/-- A Python dict (record or filter set): insertion-ordered association
list from string keys to values. -/
abbrev Dict := List (String × PyVal)

abbrev Record := Dict
abbrev FilterSet := Dict

/-- Python `d.get(k)` (default `None`): value of the first entry with key
`k`, else `None`. -/
def dGet : Dict → String → PyVal
  | [], _ => PyVal.none
  | kv :: rest, k => if kv.1 == k then kv.2 else dGet rest k

/-- Python `d.get(k, default)`. -/
def dGetD : Dict → String → PyVal → PyVal
  | [], _, dflt => dflt
  | kv :: rest, k, dflt => if kv.1 == k then kv.2 else dGetD rest k dflt

/-- Python `k in d`. -/
def dContains : Dict → String → Bool
  | [], _ => false
  | kv :: rest, k => kv.1 == k || dContains rest k

/-- Python `d[k] = v`: replace the value of the existing entry in place,
else append a new entry at the end. -/
def dSet : Dict → String → PyVal → Dict
  | [], k, v => [(k, v)]
  | kv :: rest, k, v => if kv.1 == k then (k, v) :: rest else kv :: dSet rest k v

/-- Python `d.pop(k)` (ignoring the returned value): remove the entry
with key `k`. -/
def dPop : Dict → String → Dict
  | [], _ => []
  | kv :: rest, k => if kv.1 == k then dPop rest k else kv :: dPop rest k

/-- Python `d.setdefault(k, v)`: insert `(k, v)` at the end only when the
key is missing. -/
def dSetdefault (d : Dict) (k : String) (v : PyVal) : Dict :=
  if dContains d k then d else d ++ [(k, v)]

/-- Characters Python `str.strip()` removes. -/
def isPySpace (c : Char) : Bool :=
  c == ' ' || c == '\t' || c == '\n' || c == '\r' || c == '\x0b' || c == '\x0c'

/-- Python `str.strip()`: drop whitespace from both ends. -/
def pyStrip (s : String) : String :=
  ⟨((s.toList.dropWhile isPySpace).reverse.dropWhile isPySpace).reverse⟩

/-- ASCII lower-casing of one character (Python `str.lower()` on the
ASCII inputs in scope). -/
def lowerChar (c : Char) : Char :=
  if c.toNat ≥ 65 && c.toNat ≤ 90 then Char.ofNat (c.toNat + 32) else c

/-- ASCII upper-casing of one character. -/
def upperChar (c : Char) : Char :=
  if c.toNat ≥ 97 && c.toNat ≤ 122 then Char.ofNat (c.toNat - 32) else c

/-- Python `str.lower()` (ASCII fragment). -/
def pyLower (s : String) : String := ⟨s.toList.map lowerChar⟩

/-- Python `str.upper()` (ASCII fragment). -/
def pyUpper (s : String) : String := ⟨s.toList.map upperChar⟩

/-- Python truthiness of a `PyVal` (`if v:`). -/
def pyTruthy : PyVal → Bool
  | PyVal.none => false
  | PyVal.str s => s != ""
  | PyVal.int n => n != 0
  | PyVal.list xs => !xs.isEmpty

/-- Python `str(v)` for the values in scope. -/
def pyStr : PyVal → String
  | PyVal.none => "None"
  | PyVal.str s => s
  | PyVal.int n => toString n
  | PyVal.list xs =>
      "[" ++ String.intercalate ", " (xs.map (fun s => "'" ++ s ++ "'")) ++ "]"

/-- Digits-only parse used by `pyParseInt`. -/
def digitsToNat : List Char → Option Nat
  | [] => Option.none
  | cs =>
      if cs.all Char.isDigit then
        Option.some (cs.foldl (fun a c => a * 10 + (c.toNat - 48)) 0)
      else Option.none

/-- Python `int(s)` on a string: strip whitespace, optional sign, decimal
digits; failure is `ValueError`. -/
def pyParseInt (s : String) : Option Int :=
  match (pyStrip s).toList with
  | '+' :: rest => (digitsToNat rest).map Int.ofNat
  | '-' :: rest => (digitsToNat rest).map (fun n => -(Int.ofNat n))
  | rest => (digitsToNat rest).map Int.ofNat

/-- Python `int(v)` on a `PyVal`; `Option.none` models the
`TypeError`/`ValueError` that `passes_numeric_filter` catches. -/
def pyIntCast : PyVal → Option Int
  | PyVal.int n => Option.some n
  | PyVal.str s => pyParseInt s
  | _ => Option.none

/-- Boolean prefix test on character lists. -/
def isPrefixB : List Char → List Char → Bool
  | [], _ => true
  | _ :: _, [] => false
  | a :: as, b :: bs => a == b && isPrefixB as bs

/-- Boolean substring test on character lists. -/
def isSubB (needle : List Char) : List Char → Bool
  | [] => needle.isEmpty
  | b :: bs => isPrefixB needle (b :: bs) || isSubB needle bs

/-- Python `needle in haystack` on strings. -/
def pyIn (needle haystack : String) : Bool :=
  isSubB needle.toList haystack.toList

/-- Length of the longest common prefix of two character lists. -/
def commonPrefixLen : List Char → List Char → Nat
  | a :: as, b :: bs => if a == b then commonPrefixLen as bs + 1 else 0
  | _, _ => 0

/-- `difflib.SequenceMatcher.find_longest_match` over full sequences
(no junk, strings short enough that autojunk is inert): the longest
matching block `(i, j, size)`, ties resolved to the smallest `i`, then
the smallest `j`. -/
def findLongestMatch (a b : List Char) : Nat × Nat × Nat :=
  (List.range a.length).foldl (fun best i =>
    (List.range b.length).foldl (fun best j =>
      let k := commonPrefixLen (a.drop i) (b.drop j)
      if k > best.2.2 then (i, j, k) else best) best) (0, 0, 0)

/-- Total size of `SequenceMatcher.get_matching_blocks`: recursively
match the longest block, then the parts left of it and right of it. The
fuel argument bounds the recursion depth; `a.length + b.length` is always
enough. -/
def matchingSize : Nat → List Char → List Char → Nat
  | 0, _, _ => 0
  | fuel + 1, a, b =>
      let m := findLongestMatch a b
      if m.2.2 == 0 then 0
      else
        matchingSize fuel (a.take m.1) (b.take m.2.1) + m.2.2 +
          matchingSize fuel (a.drop (m.1 + m.2.2)) (b.drop (m.2.1 + m.2.2))

/-- `difflib.SequenceMatcher(None, a, b).ratio()`: `2*M / (len a + len b)`
(and `1` when both are empty). -/
def simRatio (a b : String) : Rat :=
  let la := a.toList
  let lb := b.toList
  let t := la.length + lb.length
  if t == 0 then 1 else (2 * (matchingSize t la lb) : Rat) / (t : Rat)

/-- `fuzzy_match(text, pattern, threshold)` from `main.py`: false when
either argument is falsy; otherwise lower-case both, succeed when the
pattern is a substring of the text, else compare the similarity ratio
with the threshold. -/
def fuzzy_match (text pattern : PyVal) (threshold : Rat) : Bool :=
  if !pyTruthy text || !pyTruthy pattern then false
  else
    let t := pyLower (pyStr text)
    let p := pyLower (pyStr pattern)
    if pyIn p t then true
    else decide (threshold ≤ simRatio t p)

/-- The default threshold of `fuzzy_match` (0.7). -/
def defaultThreshold : Rat := 7 / 10

/-- `get_column_value(row, key)` from `main.py`: first column whose
lower-cased, stripped name equals the lower-cased, stripped key. -/
def get_column_value (r : Record) (key : String) : PyVal :=
  let keyNorm := pyStrip (pyLower key)
  match r.find? (fun kv => pyStrip (pyLower kv.1) == keyNorm) with
  | Option.some kv => kv.2
  | Option.none => PyVal.none

/-- `passes_numeric_filter(value_raw, min_val, max_val)` from `main.py`.
The `int(value_raw)` failure is caught and yields `false`; a bound that
is neither `None` nor an int would make Python's comparison raise
`TypeError`, modelled as `Except.error`. -/
def passes_numeric_filter (value_raw min_val max_val : PyVal) :
    Except Unit Bool :=
  match pyIntCast value_raw with
  | Option.none => Except.ok false
  | Option.some value =>
      match min_val with
      | PyVal.none => pnfMax value max_val
      | PyVal.int m =>
          if value < m then Except.ok false else pnfMax value max_val
      | _ => Except.error ()
where
  pnfMax (value : Int) (max_val : PyVal) : Except Unit Bool :=
    match max_val with
    | PyVal.none => Except.ok true
    | PyVal.int m => if value > m then Except.ok false else Except.ok true
    | _ => Except.error ()

/-- Errors `filter_students` can surface: the SAT/ACT `HTTPException`
and a Python runtime `TypeError`/`AttributeError` escaping the loop. -/
inductive EngineError where
  | conflictingFilterGroups
  | typeError
deriving DecidableEq, Repr

/-- Keys skipped by the generic filter loop of `filter_students`. -/
def skipKeys : List String :=
  ["ib_min_12", "ib_max_12",
   "SAT Total score_min", "SAT Total score_max",
   "ACT Score_min", "ACT Score_max"]

/-- `sat_used` in `filter_students`: some SAT bound is not `None`. -/
def satUsed (q : FilterSet) : Bool :=
  dGet q "SAT Total score_min" != PyVal.none ||
    dGet q "SAT Total score_max" != PyVal.none

/-- `act_used` in `filter_students`: some ACT bound is not `None`. -/
def actUsed (q : FilterSet) : Bool :=
  dGet q "ACT Score_min" != PyVal.none ||
    dGet q "ACT Score_max" != PyVal.none

/-- Condition guarding the IB block of `filter_students`. -/
def ibGateActive (q : FilterSet) : Bool :=
  dGet q "ib_min_12" != PyVal.none || dGet q "ib_max_12" != PyVal.none

/-- The `for key, val in query_params.items()` loop body of
`filter_students` ("Other filters"): dispatch on the lower-cased key;
`break` on a failed filter is modelled by returning `false`
immediately. -/
def otherFiltersLoop (r : Record) : List (String × PyVal) → Except Unit Bool
  | [] => Except.ok true
  | (key, val) :: rest =>
    if key ∈ skipKeys then otherFiltersLoop r rest
    else if val == PyVal.none then otherFiltersLoop r rest
    else if pyLower key == "intended_major" then
      match val with
      | PyVal.str s =>
          let majors := (s.splitOn ",").map pyStrip
          let cell := get_column_value r "Intended Major"
          if majors.any (fun m => fuzzy_match cell (PyVal.str m) defaultThreshold)
          then otherFiltersLoop r rest
          else Except.ok false
      | _ => Except.error ()
    else if pyLower key == "city" then
      match dGetD r "City of Graduation" (PyVal.str ""), val with
      | PyVal.str c, PyVal.str v =>
          if pyLower c != pyLower v then Except.ok false
          else otherFiltersLoop r rest
      | _, _ => Except.error ()
    else if pyLower key == "admitted univs" then
      let cell := dGetD r "Accepted Univ" (PyVal.str "")
      match val with
      | PyVal.list vs =>
          if vs.any (fun v => fuzzy_match cell (PyVal.str v) defaultThreshold)
          then otherFiltersLoop r rest
          else Except.ok false
      | _ =>
          if fuzzy_match cell val defaultThreshold then otherFiltersLoop r rest
          else Except.ok false
    else if pyLower key == "countries applied to" then
      let cell := dGetD r "Countries Applied To" (PyVal.str "")
      if fuzzy_match cell val defaultThreshold then otherFiltersLoop r rest
      else Except.ok false
    else
      let cell := get_column_value r key
      if fuzzy_match cell val defaultThreshold then otherFiltersLoop r rest
      else Except.ok false

/-- SAT and ACT numeric blocks of `filter_students`, followed by the
generic loop. -/
def afterIB (q : FilterSet) (r : Record) : Except Unit Bool :=
  let satStep : Except Unit Bool :=
    if satUsed q then
      match passes_numeric_filter (dGet r "SAT Total score")
          (dGet q "SAT Total score_min") (dGet q "SAT Total score_max") with
      | Except.error e => Except.error e
      | Except.ok false => Except.ok false
      | Except.ok true => Except.ok true
    else Except.ok true
  match satStep with
  | Except.error e => Except.error e
  | Except.ok false => Except.ok false
  | Except.ok true =>
      let actStep : Except Unit Bool :=
        if actUsed q then
          match passes_numeric_filter (dGet r "ACT Score")
              (dGet q "ACT Score_min") (dGet q "ACT Score_max") with
          | Except.error e => Except.error e
          | Except.ok false => Except.ok false
          | Except.ok true => Except.ok true
        else Except.ok true
      match actStep with
      | Except.error e => Except.error e
      | Except.ok false => Except.ok false
      | Except.ok true => otherFiltersLoop r q

/-- Per-record body of `filter_students`: the IB board gate, then the
SAT/ACT numeric filters, then the generic loop. `Except.ok false` models
`continue`/`include = False`. -/
def includeRecord (q : FilterSet) (r : Record) : Except Unit Bool :=
  if ibGateActive q then
    match dGetD r "12th Board" (PyVal.str "") with
    | PyVal.str b =>
        if pyUpper (pyStrip b) != "IBDP" then Except.ok false
        else
          match passes_numeric_filter (dGet r "12th grade overall score")
              (dGet q "ib_min_12") (dGet q "ib_max_12") with
          | Except.error e => Except.error e
          | Except.ok false => Except.ok false
          | Except.ok true => afterIB q r
    | _ => Except.error ()
  else afterIB q r

/-- Sequential record scan of `filter_students`, aborting at the first
record whose evaluation raises. -/
def filterScan (q : FilterSet) : List Record → Except Unit (List Record)
  | [] => Except.ok []
  | r :: rs =>
      match includeRecord q r with
      | Except.error e => Except.error e
      | Except.ok b =>
          match filterScan q rs with
          | Except.error e => Except.error e
          | Except.ok rest => Except.ok (if b then r :: rest else rest)

/-- `filter_students(records, query_params)` from `main.py`: the SAT/ACT
group conflict is rejected before any record is examined; otherwise the
records are scanned in order. -/
def filter_students (records : List Record) (query_params : FilterSet) :
    Except EngineError (List Record) :=
  if satUsed query_params && actUsed query_params then
    Except.error EngineError.conflictingFilterGroups
  else
    match filterScan query_params records with
    | Except.ok l => Except.ok l
    | Except.error _ => Except.error EngineError.typeError

/-- `COUNTRY_SYNONYMS` from `normalize_filters`. -/
def COUNTRY_SYNONYMS : List (String × String) :=
  [("america", "usa"), ("united states", "usa"),
   ("united states of america", "usa"), ("us", "usa"), ("u.s.", "usa")]

/-- `MAJOR_SYNONYMS` from `normalize_filters`. -/
def MAJOR_SYNONYMS : List (String × String) :=
  [("engineering",
    "mechanical engineering, electrical engineering, " ++
    "civil engineering, chemical engineering, " ++
    "computer engineering, aerospace engineering"),
   ("cs", "computer science"), ("comp sci", "computer science"),
   ("cse", "computer science")]

/-- Python `table.get(v, v)` on a synonym table. -/
def synGet (table : List (String × String)) (v : String) : String :=
  match table.find? (fun p => p.1 == v) with
  | Option.some p => p.2
  | Option.none => v

/-- One iteration of the `for key, val in filters.items()` loop of
`normalize_filters`. -/
def normStep (normalized : Dict) (kv : String × PyVal) : Dict :=
  match kv.2 with
  | PyVal.str s =>
      let v := pyLower (pyStrip s)
      let v := if kv.1 == "countries applied to" then synGet COUNTRY_SYNONYMS v else v
      let v := if kv.1 == "intended_major" then synGet MAJOR_SYNONYMS v else v
      dSet normalized kv.1 (PyVal.str v)
  | other => dSet normalized kv.1 other

/-- `normalize_filters(filters)` from `main.py`: rebuild the dict,
stripping and lower-casing string values and folding the per-key synonym
tables. -/
def normalize_filters (filters : FilterSet) : FilterSet :=
  filters.foldl normStep []

/-- `COUNTRY_WORDS` from `repair_llm_filters`. -/
def COUNTRY_WORDS : List String :=
  ["america", "usa", "us", "united states", "uk", "canada", "india"]

/-- First repair of `repair_llm_filters`: drop `"admitted univs"` when
its value is the string `"ib"` (case-insensitively). -/
def repairStep1 (d : FilterSet) : FilterSet :=
  if dContains d "admitted univs" then
    match dGet d "admitted univs" with
    | PyVal.str s => if pyLower s == "ib" then dPop d "admitted univs" else d
    | _ => d
  else d

/-- Body of the second repair once the `"admitted univs"` value has been
listified: move a country name to `"countries applied to"`, else store
the listified value back. -/
def repairStep2Core (d : FilterSet) (val : List String) : FilterSet :=
  if ((val.filter (fun v => v != "")).map pyLower).any
      (fun v => COUNTRY_WORDS.contains v) then
    dSet (dPop d "admitted univs") "countries applied to"
      (PyVal.str (((val.filter (fun v => v != "")).map pyLower).headD ""))
  else dSet d "admitted univs" (PyVal.list val)

/-- Second repair of `repair_llm_filters`: iterating a non-iterable
`"admitted univs"` value raises `TypeError`, modelled as
`Except.error`. -/
def repairStep2 (d : FilterSet) : Except Unit FilterSet :=
  if dContains d "admitted univs" then
    match dGet d "admitted univs" with
    | PyVal.none => Except.ok d
    | PyVal.str s => Except.ok (repairStep2Core d [s])
    | PyVal.list xs => Except.ok (repairStep2Core d xs)
    | PyVal.int _ => Except.error ()
  else Except.ok d

/-- Third repair of `repair_llm_filters`: inject the default IB bounds
when the query text mentions "ib". -/
def repairStep3 (user_query : String) (d : FilterSet) : FilterSet :=
  if pyIn "ib" (pyLower user_query) then
    dSetdefault (dSetdefault d "ib_min_12" (PyVal.int 24)) "ib_max_12" (PyVal.int 45)
  else d

/-- `repair_llm_filters(filters, user_query)` from `main.py`. -/
def repair_llm_filters (filters : FilterSet) (user_query : String) :
    Except Unit FilterSet :=
  match repairStep2 (repairStep1 filters) with
  | Except.error e => Except.error e
  | Except.ok d => Except.ok (repairStep3 user_query d)

/-- The allowed filter keys named in the `/nl_query` prompt of
`main.py`. -/
def recognizedKeys : List String :=
  ["ib_min_12", "ib_max_12",
   "SAT Total score_min", "SAT Total score_max",
   "ACT Score_min", "ACT Score_max",
   "intended_major", "admitted univs", "countries applied to", "city"]

/-- View of an optional integer bound as the `PyVal` a well-typed filter
set stores for it. -/
def optIntToPy : Option Int → PyVal
  | Option.none => PyVal.none
  | Option.some n => PyVal.int n

/-! ### Association-list (dict) lemmas -/

theorem dGet_of_not_contains (d : Dict) (k : String)
    (h : dContains d k = false) : dGet d k = PyVal.none := by
  induction d with
  | nil => rfl
  | cons kv rest ih =>
      simp only [dContains, Bool.or_eq_false_iff] at h
      simp only [dGet, h.1, if_false, Bool.false_eq_true]
      exact ih h.2

theorem dContains_of_dGet_ne (d : Dict) (k : String)
    (h : dGet d k ≠ PyVal.none) : dContains d k = true := by
  by_cases hc : dContains d k = true
  · exact hc
  · exact absurd (dGet_of_not_contains d k (by simpa using hc)) h

theorem dGet_dSet_self (d : Dict) (k : String) (v : PyVal) :
    dGet (dSet d k v) k = v := by
  induction d with
  | nil => simp [dSet, dGet]
  | cons kv rest ih =>
      by_cases h : kv.1 = k
      · simp [dSet, dGet, h]
      · simp [dSet, dGet, h, ih]

theorem dGet_dSet_ne (d : Dict) (k k' : String) (v : PyVal) (h : k' ≠ k) :
    dGet (dSet d k v) k' = dGet d k' := by
  have h' : ¬(k = k') := fun hh => h hh.symm
  induction d with
  | nil => simp [dSet, dGet, h']
  | cons kv rest ih =>
      by_cases hk : kv.1 = k
      · simp [dSet, dGet, hk, h']
      · simp [dSet, dGet, hk, ih]

theorem dContains_dSet (d : Dict) (k k' : String) (v : PyVal) :
    dContains (dSet d k v) k' = (dContains d k' || (k' == k)) := by
  induction d with
  | nil => simp [dSet, dContains, Bool.or_comm, eq_comm]
  | cons kv rest ih =>
      by_cases hk : kv.1 = k
      · by_cases hk' : k = k'
        · simp [dSet, dContains, hk, hk', eq_comm]
        · have h2 : ¬(k' = k) := fun hh => hk' hh.symm
          simp [dSet, dContains, hk, hk', h2, ih]
      · simp [dSet, dContains, hk, ih, Bool.or_assoc]

theorem dGet_dPop_self (d : Dict) (k : String) :
    dGet (dPop d k) k = PyVal.none := by
  induction d with
  | nil => rfl
  | cons kv rest ih =>
      by_cases h : kv.1 = k
      · simpa [dPop, h] using ih
      · simpa [dPop, dGet, h] using ih

theorem dContains_dPop_self (d : Dict) (k : String) :
    dContains (dPop d k) k = false := by
  induction d with
  | nil => rfl
  | cons kv rest ih =>
      by_cases h : kv.1 = k
      · simpa [dPop, h] using ih
      · simpa [dPop, dContains, h] using ih

theorem dGet_dPop_ne (d : Dict) (k k' : String) (h : k' ≠ k) :
    dGet (dPop d k) k' = dGet d k' := by
  induction d with
  | nil => rfl
  | cons kv rest ih =>
      by_cases hk : kv.1 = k
      · have hk' : ¬(kv.1 = k') := by rw [hk]; exact fun hh => h hh.symm
        have h2 : ¬(k = k') := fun hh => h hh.symm
        simp [dPop, dGet, hk, hk', h2, ih]
      · simp [dPop, dGet, hk, ih]

theorem dContains_dPop_ne (d : Dict) (k k' : String) (h : k' ≠ k) :
    dContains (dPop d k) k' = dContains d k' := by
  induction d with
  | nil => rfl
  | cons kv rest ih =>
      by_cases hk : kv.1 = k
      · have hk' : ¬(kv.1 = k') := by rw [hk]; exact fun hh => h hh.symm
        have h2 : ¬(k = k') := fun hh => h hh.symm
        simp [dPop, dContains, hk, hk', h2, ih]
      · simp [dPop, dContains, hk, ih]

theorem dContains_dPop_imp (d : Dict) (k k' : String)
    (h : dContains (dPop d k) k' = true) : dContains d k' = true := by
  by_cases hk : k' = k
  · rw [hk] at h; rw [dContains_dPop_self] at h; exact absurd h (by simp)
  · rwa [dContains_dPop_ne d k k' hk] at h

theorem dSet_self (d : Dict) (k : String) (h : dContains d k = true) :
    dSet d k (dGet d k) = d := by
  induction d with
  | nil => simp [dContains] at h
  | cons kv rest ih =>
      by_cases hk : kv.1 = k
      · have he : (k, kv.2) = kv := by rw [← hk]
        simp [dSet, dGet, hk, he]
      · simp only [dContains, Bool.or_eq_true] at h
        rcases h with h | h
        · exact absurd (by simpa using h) hk
        · simp [dSet, dGet, hk, ih h]

theorem dSetdefault_of_contains (d : Dict) (k : String) (v : PyVal)
    (h : dContains d k = true) : dSetdefault d k v = d := by
  simp [dSetdefault, h]

theorem dContains_append (d d' : Dict) (k : String) :
    dContains (d ++ d') k = (dContains d k || dContains d' k) := by
  induction d with
  | nil => simp [dContains]
  | cons kv rest ih => simp [dContains, ih, Bool.or_assoc]

theorem dGet_append_of_not_contains (d d' : Dict) (k : String)
    (h : dContains d k = false) : dGet (d ++ d') k = dGet d' k := by
  induction d with
  | nil => rfl
  | cons kv rest ih =>
      simp only [dContains, Bool.or_eq_false_iff] at h
      simp only [List.cons_append, dGet, h.1, if_false, Bool.false_eq_true]
      exact ih h.2

theorem dGet_append_of_contains (d d' : Dict) (k : String)
    (h : dContains d k = true) : dGet (d ++ d') k = dGet d k := by
  induction d with
  | nil => simp [dContains] at h
  | cons kv rest ih =>
      by_cases hk : kv.1 = k
      · simp [dGet, hk]
      · simp only [dContains, Bool.or_eq_true] at h
        rcases h with h | h
        · exact absurd (by simpa using h) hk
        · simp [dGet, hk, ih h]

theorem dContains_dSetdefault_self (d : Dict) (k : String) (v : PyVal) :
    dContains (dSetdefault d k v) k = true := by
  by_cases h : dContains d k = true
  · simp [dSetdefault, h]
  · have h' : dContains d k = false := by simpa using h
    simp [dSetdefault, h', dContains_append, dContains]

theorem dContains_dSetdefault_ne (d : Dict) (k k' : String) (v : PyVal)
    (h : k' ≠ k) : dContains (dSetdefault d k v) k' = dContains d k' := by
  have h2 : ¬(k = k') := fun hh => h hh.symm
  by_cases hc : dContains d k = true
  · simp [dSetdefault, hc]
  · have h' : dContains d k = false := by simpa using hc
    simp [dSetdefault, h', dContains_append, dContains, h2]

theorem dGet_dSetdefault_ne (d : Dict) (k k' : String) (v : PyVal)
    (h : k' ≠ k) : dGet (dSetdefault d k v) k' = dGet d k' := by
  have h2 : ¬(k = k') := fun hh => h hh.symm
  by_cases hc : dContains d k = true
  · simp [dSetdefault, hc]
  · have h' : dContains d k = false := by simpa using hc
    by_cases hck : dContains d k' = true
    · simp [dSetdefault, h', dGet_append_of_contains _ _ _ hck]
    · have hck' : dContains d k' = false := by simpa using hck
      simp [dSetdefault, h', dGet_append_of_not_contains _ _ _ hck',
        dGet_of_not_contains _ _ hck', dGet, h2]

theorem dGet_dSetdefault_self_of_not_contains (d : Dict) (k : String)
    (v : PyVal) (h : dContains d k = false) :
    dGet (dSetdefault d k v) k = v := by
  simp [dSetdefault, h, dGet_append_of_not_contains _ _ _ h, dGet]

/-! ### Claim C3: the numeric range test -/

/-- C3, counterexample: the claim says a non-numeric cell value passes
vacuously when both bounds are absent, but `passes_numeric_filter`
returns false for a non-numeric value regardless of the bounds. -/
theorem claim_C3_counterexample :
    passes_numeric_filter (PyVal.str "N/A") PyVal.none PyVal.none =
      Except.ok false := rfl

/-- C3 (amended): when the cell value parses as an integer `n`, the test
passes iff `n` respects the given bounds; when it is absent or does not
parse, the test fails regardless of the bounds — including when both
bounds are absent. -/
theorem claim_C3_amended : ∀ (v : PyVal) (mn mx : Option Int),
    (passes_numeric_filter v (optIntToPy mn) (optIntToPy mx) = Except.ok true ↔
      ∃ n : Int, pyIntCast v = Option.some n ∧
        (∀ m, mn = Option.some m → m ≤ n) ∧
        (∀ m, mx = Option.some m → n ≤ m))
    ∧ (pyIntCast v = Option.none →
      passes_numeric_filter v (optIntToPy mn) (optIntToPy mx) =
        Except.ok false) := by
  intro v mn mx
  cases hv : pyIntCast v with
  | none =>
      constructor
      · simp [passes_numeric_filter, hv]
      · intro _; simp [passes_numeric_filter, hv]
  | some n =>
      constructor
      · rcases mn with _ | m <;> rcases mx with _ | m' <;>
          simp only [passes_numeric_filter, hv, optIntToPy,
            passes_numeric_filter.pnfMax] <;>
          first
            | (split_ifs <;> simp_all)
            | simp_all
      · intro h; simp [hv] at h

/-- C3 witness: a non-numeric value with a lower bound fails. -/
theorem claim_C3_witness :
    passes_numeric_filter (PyVal.str "N/A") (optIntToPy (Option.some 30))
      (optIntToPy Option.none) = Except.ok false :=
  (claim_C3_amended (PyVal.str "N/A") (Option.some 30) Option.none).2 (by rfl)

/-! ### Claim C8: synonym folding in normalize_filters -/

/-- C8: `normalize_filters` folds country synonyms only under the key
"countries applied to" and major synonyms only under "intended_major";
every other string value is just stripped and lower-cased. -/
theorem claim_C8 :
    normalize_filters [("countries applied to", PyVal.str "America")] =
        [("countries applied to", PyVal.str "usa")]
    ∧ normalize_filters [("countries applied to", PyVal.str "united states")] =
        [("countries applied to", PyVal.str "usa")]
    ∧ normalize_filters [("countries applied to", PyVal.str "US")] =
        [("countries applied to", PyVal.str "usa")]
    ∧ normalize_filters [("intended_major", PyVal.str "cs")] =
        [("intended_major", PyVal.str "computer science")]
    ∧ normalize_filters [("intended_major", PyVal.str "comp sci")] =
        [("intended_major", PyVal.str "computer science")]
    ∧ normalize_filters [("intended_major", PyVal.str "america")] =
        [("intended_major", PyVal.str "america")]
    ∧ normalize_filters [("countries applied to", PyVal.str "cs")] =
        [("countries applied to", PyVal.str "cs")]
    ∧ (∀ (k s : String), ¬(k = "countries applied to") →
        ¬(k = "intended_major") →
        normalize_filters [(k, PyVal.str s)] =
          [(k, PyVal.str (pyLower (pyStrip s)))]) := by
  refine ⟨rfl, rfl, rfl, rfl, rfl, rfl, rfl, ?_⟩
  intro k s h1 h2
  simp [normalize_filters, normStep, dSet, h1, h2]

/-- C8 witness: an unrelated key's value is stripped and lower-cased but
never synonym-folded. -/
theorem claim_C8_witness :
    normalize_filters [("city", PyVal.str " Delhi ")] =
      [("city", PyVal.str (pyLower (pyStrip " Delhi ")))] :=
  claim_C8.2.2.2.2.2.2.2 "city" " Delhi " (by decide) (by decide)

/-! ### Claim C1: SAT/ACT conflicting filter groups -/

/-- C1, counterexample: the claim includes "SAT Math" and "SAT English"
in the SAT column group, but `filter_students` only inspects
"SAT Total score_min"/"SAT Total score_max"; a filter set with
"SAT Math_min" and an ACT bound is not rejected. -/
theorem claim_C1_counterexample :
    filter_students []
      [("SAT Math_min", PyVal.int 600), ("ACT Score_min", PyVal.int 30)] =
      Except.ok [] := rfl

/-- C1 (amended): when a "SAT Total score" bound and an "ACT Score"
bound are both present (not None), `filter_students` fails with the
conflicting-groups error regardless of the records; otherwise that error
is never raised. -/
theorem claim_C1_amended : ∀ (F : FilterSet) (records : List Record),
    (satUsed F = true → actUsed F = true →
      filter_students records F =
        Except.error EngineError.conflictingFilterGroups)
    ∧ (¬(satUsed F = true ∧ actUsed F = true) →
      filter_students records F ≠
        Except.error EngineError.conflictingFilterGroups) := by
  intro F records
  constructor
  · intro hs ha
    simp [filter_students, hs, ha]
  · intro h
    have hb : (satUsed F && actUsed F) = false := by
      cases hsa : satUsed F <;> cases haa : actUsed F <;> simp_all
    simp only [filter_students, hb, Bool.false_eq_true, if_false]
    cases hfs : filterScan F records <;> simp

/-- C1 witness: both groups present gives the conflict error on an
empty record list. -/
theorem claim_C1_witness :
    filter_students []
      [("SAT Total score_min", PyVal.int 1400), ("ACT Score_min", PyVal.int 30)] =
      Except.error EngineError.conflictingFilterGroups :=
  (claim_C1_amended
    [("SAT Total score_min", PyVal.int 1400), ("ACT Score_min", PyVal.int 30)]
    []).1 (by decide) (by decide)

/-! ### Claim C4: fuzzy_match -/

theorem isPrefixB_iff (n : List Char) : ∀ h, isPrefixB n h = true ↔
    ∃ post, h = n ++ post := by
  induction n with
  | nil => intro h; simp [isPrefixB]
  | cons a as ih =>
      intro h
      cases h with
      | nil => simp [isPrefixB]
      | cons b bs =>
          simp only [isPrefixB, Bool.and_eq_true, beq_iff_eq, ih,
            List.cons_append, List.cons.injEq]
          constructor
          · rintro ⟨h1, post, h2⟩; exact ⟨post, h1.symm, h2⟩
          · rintro ⟨post, h1, h2⟩; exact ⟨h1.symm, post, h2⟩

theorem isSubB_iff (n : List Char) : ∀ h, isSubB n h = true ↔
    ∃ pre post, h = pre ++ n ++ post := by
  intro h
  induction h with
  | nil =>
      simp only [isSubB, List.isEmpty_iff]
      constructor
      · intro hn; exact ⟨[], [], by simp [hn]⟩
      · rintro ⟨pre, post, hp⟩
        rcases List.append_eq_nil.mp (List.append_eq_nil.mp hp.symm).1 with ⟨_, h2⟩
        exact h2
  | cons b bs ih =>
      simp only [isSubB, Bool.or_eq_true]
      constructor
      · intro hh
        rcases hh with h1 | h2
        · rcases (isPrefixB_iff n _).mp h1 with ⟨post, hp⟩
          exact ⟨[], post, by simpa using hp⟩
        · rcases ih.mp h2 with ⟨pre, post, hp⟩
          exact ⟨b :: pre, post, by simp [hp]⟩
      · rintro ⟨pre, post, hp⟩
        cases pre with
        | nil =>
            exact Or.inl ((isPrefixB_iff n _).mpr ⟨post, by simpa using hp⟩)
        | cons p ps =>
            simp only [List.cons_append, List.cons.injEq, List.append_assoc] at hp
            exact Or.inr (ih.mpr ⟨ps, post, by simp [hp.2]⟩)

/-- Python substring containment as an explicit decomposition. -/
theorem pyIn_iff (needle haystack : String) : pyIn needle haystack = true ↔
    ∃ pre post, haystack.toList = pre ++ needle.toList ++ post :=
  isSubB_iff needle.toList haystack.toList

/-- C4, counterexample: the claim predicts true whenever the normalized
candidate is a substring of the normalized pattern (so for "science" vs
"computer science"), and whenever the inputs agree after stripping
periods (so for "mit" vs "m.i.t" at threshold 0.8); `fuzzy_match` only
tests pattern-inside-text containment and performs no punctuation
stripping, and returns false on both inputs. -/
theorem claim_C4_counterexample :
    fuzzy_match (PyVal.str "science") (PyVal.str "computer science")
        defaultThreshold = false
    ∧ pyIn "science" "computer science" = true
    ∧ fuzzy_match (PyVal.str "mit") (PyVal.str "m.i.t") (8 / 10) = false
    ∧ "m.i.t".toList.filter (fun c => c != '.') = "mit".toList := by
  set_option maxRecDepth 100000 in
  refine ⟨?_, rfl, ?_, rfl⟩ <;> with_unfolding_all rfl

/-- C4 (amended): `fuzzy_match` returns false when either input is
empty or absent; otherwise it only lower-cases the two strings (no
trimming or punctuation stripping) and returns true iff the lowered
pattern occurs as a substring of the lowered candidate — not the other
direction — or the similarity ratio reaches the threshold. -/
theorem claim_C4_amended : ∀ (s p : String) (θ : Rat) (v : PyVal),
    (fuzzy_match (PyVal.str s) (PyVal.str p) θ = true ↔
      ¬(s = "") ∧ ¬(p = "") ∧
        ((∃ pre post, (pyLower s).toList = pre ++ (pyLower p).toList ++ post)
          ∨ θ ≤ simRatio (pyLower s) (pyLower p)))
    ∧ fuzzy_match PyVal.none v θ = false
    ∧ fuzzy_match v PyVal.none θ = false := by
  intro s p θ v
  refine ⟨?_, by simp [fuzzy_match, pyTruthy], by simp [fuzzy_match, pyTruthy]⟩
  by_cases hs : s = ""
  · simp [fuzzy_match, pyTruthy, pyStr, hs]
  · by_cases hp : p = ""
    · simp [fuzzy_match, pyTruthy, pyStr, hp]
    · have hcond : (!pyTruthy (PyVal.str s) || !pyTruthy (PyVal.str p)) = false := by
        simp [pyTruthy, hs, hp]
      by_cases hin : pyIn (pyLower p) (pyLower s) = true
      · have hL : fuzzy_match (PyVal.str s) (PyVal.str p) θ = true := by
          simp [fuzzy_match, hcond, pyStr, hin]
        exact iff_of_true hL
          ⟨hs, hp, Or.inl ((pyIn_iff (pyLower p) (pyLower s)).mp hin)⟩
      · have hin' : pyIn (pyLower p) (pyLower s) = false := by simpa using hin
        have hL : fuzzy_match (PyVal.str s) (PyVal.str p) θ =
            decide (θ ≤ simRatio (pyLower s) (pyLower p)) := by
          simp [fuzzy_match, hcond, pyStr, hin']
        rw [hL]
        constructor
        · intro hd
          exact ⟨hs, hp, Or.inr (of_decide_eq_true hd)⟩
        · rintro ⟨-, -, hor⟩
          rcases hor with hsub | hle
          · exact absurd ((pyIn_iff (pyLower p) (pyLower s)).mpr hsub)
              (by simp [hin'])
          · exact decide_eq_true hle

/-! ### Repair-step lemmas -/

theorem repairStep1_shape (d : FilterSet) :
    repairStep1 d = d ∨ repairStep1 d = dPop d "admitted univs" := by
  unfold repairStep1
  split_ifs with h
  · cases hv : dGet d "admitted univs" with
    | str s => by_cases h2 : (pyLower s == "ib") = true <;> simp [h2]
    | none => simp
    | int n => simp
    | list xs => simp
  · exact Or.inl rfl

theorem repairStep1_dGet_ne (d : FilterSet) (k : String)
    (h : ¬(k = "admitted univs")) :
    dGet (repairStep1 d) k = dGet d k := by
  rcases repairStep1_shape d with h1 | h1 <;> rw [h1]
  exact dGet_dPop_ne d _ k h

theorem repairStep1_dContains_ne (d : FilterSet) (k : String)
    (h : ¬(k = "admitted univs")) :
    dContains (repairStep1 d) k = dContains d k := by
  rcases repairStep1_shape d with h1 | h1 <;> rw [h1]
  exact dContains_dPop_ne d _ k h

theorem repairStep2_shape (d d2 : FilterSet)
    (h : repairStep2 d = Except.ok d2) :
    d2 = d ∨
      (∃ v, d2 = dSet (dPop d "admitted univs") "countries applied to"
        (PyVal.str v)) ∨
      (∃ xs, d2 = dSet d "admitted univs" (PyVal.list xs)) := by
  unfold repairStep2 at h
  split_ifs at h with hc
  · cases hv : dGet d "admitted univs" with
    | none => rw [hv] at h; simp only [Except.ok.injEq] at h; exact Or.inl h.symm
    | str s =>
        rw [hv] at h; simp only [Except.ok.injEq] at h
        unfold repairStep2Core at h
        split_ifs at h
        · exact Or.inr (Or.inl ⟨_, h.symm⟩)
        · exact Or.inr (Or.inr ⟨_, h.symm⟩)
    | int n => rw [hv] at h; exact absurd h (by simp)
    | list xs =>
        rw [hv] at h; simp only [Except.ok.injEq] at h
        unfold repairStep2Core at h
        split_ifs at h
        · exact Or.inr (Or.inl ⟨_, h.symm⟩)
        · exact Or.inr (Or.inr ⟨_, h.symm⟩)
  · simp only [Except.ok.injEq] at h; exact Or.inl h.symm

theorem repairStep2_dGet_ne (d d2 : FilterSet) (k : String)
    (h : repairStep2 d = Except.ok d2) (hA : ¬(k = "admitted univs"))
    (hC : ¬(k = "countries applied to")) : dGet d2 k = dGet d k := by
  rcases repairStep2_shape d d2 h with h1 | ⟨v, h1⟩ | ⟨xs, h1⟩ <;> rw [h1]
  · rw [dGet_dSet_ne _ _ _ _ hC]
    exact dGet_dPop_ne d _ k hA
  · exact dGet_dSet_ne _ _ _ _ hA

theorem repairStep2_dContains_ne (d d2 : FilterSet) (k : String)
    (h : repairStep2 d = Except.ok d2) (hA : ¬(k = "admitted univs"))
    (hC : ¬(k = "countries applied to")) :
    dContains d2 k = dContains d k := by
  rcases repairStep2_shape d d2 h with h1 | ⟨v, h1⟩ | ⟨xs, h1⟩ <;> rw [h1]
  · rw [dContains_dSet]
    have hb : (k == "countries applied to") = false := by simpa using hC
    rw [hb, Bool.or_false]
    exact dContains_dPop_ne d _ k hA
  · rw [dContains_dSet]
    have hb : (k == "admitted univs") = false := by simpa using hA
    rw [hb, Bool.or_false]

theorem repairStep3_dGet_other (q : String) (d : FilterSet) (k : String)
    (h1 : ¬(k = "ib_min_12")) (h2 : ¬(k = "ib_max_12")) :
    dGet (repairStep3 q d) k = dGet d k := by
  unfold repairStep3
  split_ifs
  · rw [dGet_dSetdefault_ne _ _ _ _ h2, dGet_dSetdefault_ne _ _ _ _ h1]
  · rfl

theorem repairStep3_dContains_other (q : String) (d : FilterSet)
    (k : String) (h1 : ¬(k = "ib_min_12")) (h2 : ¬(k = "ib_max_12")) :
    dContains (repairStep3 q d) k = dContains d k := by
  unfold repairStep3
  split_ifs
  · rw [dContains_dSetdefault_ne _ _ _ _ h2,
      dContains_dSetdefault_ne _ _ _ _ h1]
  · rfl

theorem repairStep3_min_of_contains (q : String) (d : FilterSet)
    (h : dContains d "ib_min_12" = true) :
    dGet (repairStep3 q d) "ib_min_12" = dGet d "ib_min_12" := by
  unfold repairStep3
  split_ifs
  · rw [dSetdefault_of_contains _ _ _ h,
      dGet_dSetdefault_ne _ _ _ _ (by decide)]
  · rfl

theorem repairStep3_max_of_contains (q : String) (d : FilterSet)
    (h : dContains d "ib_max_12" = true) :
    dGet (repairStep3 q d) "ib_max_12" = dGet d "ib_max_12" := by
  unfold repairStep3
  split_ifs
  · have h' : dContains (dSetdefault d "ib_min_12" (PyVal.int 24))
        "ib_max_12" = true := by
      rw [dContains_dSetdefault_ne _ _ _ _ (by decide)]; exact h
    rw [dSetdefault_of_contains _ _ _ h',
      dGet_dSetdefault_ne _ _ _ _ (by decide)]
  · rfl

theorem repairStep3_min_inject (q : String) (d : FilterSet)
    (h : dContains d "ib_min_12" = false)
    (hq : pyIn "ib" (pyLower q) = true) :
    dGet (repairStep3 q d) "ib_min_12" = PyVal.int 24 := by
  unfold repairStep3
  rw [if_pos hq, dGet_dSetdefault_ne _ _ _ _ (by decide)]
  exact dGet_dSetdefault_self_of_not_contains _ _ _ h

theorem repairStep3_max_inject (q : String) (d : FilterSet)
    (h : dContains d "ib_max_12" = false)
    (hq : pyIn "ib" (pyLower q) = true) :
    dGet (repairStep3 q d) "ib_max_12" = PyVal.int 45 := by
  unfold repairStep3
  rw [if_pos hq]
  have h' : dContains (dSetdefault d "ib_min_12" (PyVal.int 24))
      "ib_max_12" = false := by
    rw [dContains_dSetdefault_ne _ _ _ _ (by decide)]; exact h
  exact dGet_dSetdefault_self_of_not_contains _ _ _ h'

theorem repair_ok_elim (F : FilterSet) (q : String) (F2 : FilterSet)
    (h : repair_llm_filters F q = Except.ok F2) :
    ∃ d, repairStep2 (repairStep1 F) = Except.ok d ∧
      F2 = repairStep3 q d := by
  unfold repair_llm_filters at h
  cases h2 : repairStep2 (repairStep1 F) with
  | error e => rw [h2] at h; exact absurd h (by simp)
  | ok d =>
      rw [h2] at h
      simp only [Except.ok.injEq] at h
      exact ⟨d, rfl, h.symm⟩

/-! ### Claim C7: clamping of out-of-range IB bounds -/

/-- C7, counterexample: `repair_llm_filters` performs no clamping; an
`ib_min_12` of 10, below the valid minimum 24, is returned unchanged. -/
theorem claim_C7_counterexample :
    repair_llm_filters [("ib_min_12", PyVal.int 10)] "" =
        Except.ok [("ib_min_12", PyVal.int 10)]
    ∧ (10 : Int) < 24 := ⟨rfl, by decide⟩

/-- C7 (amended): `repair_llm_filters` never modifies an existing
`ib_min_12`/`ib_max_12` value — out-of-range bounds pass through
unchanged — and only injects the defaults 24/45 when the bound is absent
and the query text mentions "ib". -/
theorem claim_C7_amended : ∀ (F : FilterSet) (q : String) (F2 : FilterSet),
    repair_llm_filters F q = Except.ok F2 →
    (dContains F "ib_min_12" = true →
      dGet F2 "ib_min_12" = dGet F "ib_min_12")
    ∧ (dContains F "ib_max_12" = true →
      dGet F2 "ib_max_12" = dGet F "ib_max_12")
    ∧ (dContains F "ib_min_12" = false → pyIn "ib" (pyLower q) = true →
      dGet F2 "ib_min_12" = PyVal.int 24)
    ∧ (dContains F "ib_max_12" = false → pyIn "ib" (pyLower q) = true →
      dGet F2 "ib_max_12" = PyVal.int 45) := by
  intro F q F2 h
  rcases repair_ok_elim F q F2 h with ⟨d, h2, hF2⟩
  subst hF2
  have hg1 : dGet d "ib_min_12" = dGet F "ib_min_12" := by
    rw [repairStep2_dGet_ne _ _ _ h2 (by decide) (by decide)]
    exact repairStep1_dGet_ne _ _ (by decide)
  have hg2 : dGet d "ib_max_12" = dGet F "ib_max_12" := by
    rw [repairStep2_dGet_ne _ _ _ h2 (by decide) (by decide)]
    exact repairStep1_dGet_ne _ _ (by decide)
  have hc1 : dContains d "ib_min_12" = dContains F "ib_min_12" := by
    rw [repairStep2_dContains_ne _ _ _ h2 (by decide) (by decide)]
    exact repairStep1_dContains_ne _ _ (by decide)
  have hc2 : dContains d "ib_max_12" = dContains F "ib_max_12" := by
    rw [repairStep2_dContains_ne _ _ _ h2 (by decide) (by decide)]
    exact repairStep1_dContains_ne _ _ (by decide)
  refine ⟨?_, ?_, ?_, ?_⟩
  · intro hmem
    rw [repairStep3_min_of_contains q d (by rw [hc1]; exact hmem), hg1]
  · intro hmem
    rw [repairStep3_max_of_contains q d (by rw [hc2]; exact hmem), hg2]
  · intro hmem hq
    exact repairStep3_min_inject q d (by rw [hc1]; exact hmem) hq
  · intro hmem hq
    exact repairStep3_max_inject q d (by rw [hc2]; exact hmem) hq

/-- C7 witness: an out-of-range minimum of 10 is preserved and the
missing maximum gets the default 45 when the query mentions "ib". -/
theorem claim_C7_witness :
    dGet [("ib_min_12", PyVal.int 10), ("ib_max_12", PyVal.int 45)]
        "ib_min_12" = dGet [("ib_min_12", PyVal.int 10)] "ib_min_12"
    ∧ dGet [("ib_min_12", PyVal.int 10), ("ib_max_12", PyVal.int 45)]
        "ib_max_12" = PyVal.int 45 :=
  ⟨(claim_C7_amended [("ib_min_12", PyVal.int 10)] "ib"
      [("ib_min_12", PyVal.int 10), ("ib_max_12", PyVal.int 45)] rfl).1 rfl,
   (claim_C7_amended [("ib_min_12", PyVal.int 10)] "ib"
      [("ib_min_12", PyVal.int 10), ("ib_max_12", PyVal.int 45)]
      rfl).2.2.2 rfl rfl⟩

/-! ### Claim C10: dropping "admitted univs" valued "ib" -/

/-- C10: when `"admitted univs"` maps to a string equal to "ib" ignoring
case, `repair_llm_filters` removes that key entirely, adds no
replacement, and leaves every other key unchanged up to the IB-default
injection (the country move cannot fire since the key is removed
first). -/
theorem claim_C10 : ∀ (F : FilterSet) (q : String) (s : String),
    dGet F "admitted univs" = PyVal.str s → pyLower s = "ib" →
    ∃ F2, repair_llm_filters F q = Except.ok F2 ∧
      dContains F2 "admitted univs" = false ∧
      (∀ k, ¬(k = "admitted univs") → ¬(k = "ib_min_12") →
        ¬(k = "ib_max_12") →
        dGet F2 k = dGet F k ∧ dContains F2 k = dContains F k) ∧
      (dContains F "ib_min_12" = true →
        dGet F2 "ib_min_12" = dGet F "ib_min_12") ∧
      (dContains F "ib_max_12" = true →
        dGet F2 "ib_max_12" = dGet F "ib_max_12") ∧
      (pyIn "ib" (pyLower q) = false →
        dGet F2 "ib_min_12" = dGet F "ib_min_12" ∧
        dGet F2 "ib_max_12" = dGet F "ib_max_12") := by
  intro F q s hget hlow
  have hC : dContains F "admitted univs" = true :=
    dContains_of_dGet_ne _ _ (by rw [hget]; simp)
  have h1 : repairStep1 F = dPop F "admitted univs" := by
    unfold repairStep1
    rw [if_pos hC, hget]
    simp [hlow]
  have h2 : repairStep2 (dPop F "admitted univs") =
      Except.ok (dPop F "admitted univs") := by
    unfold repairStep2
    rw [if_neg (by rw [dContains_dPop_self]; simp)]
  have hrep : repair_llm_filters F q =
      Except.ok (repairStep3 q (dPop F "admitted univs")) := by
    unfold repair_llm_filters
    rw [h1, h2]
  refine ⟨repairStep3 q (dPop F "admitted univs"), hrep, ?_, ?_, ?_, ?_, ?_⟩
  · rw [repairStep3_dContains_other _ _ _ (by decide) (by decide),
      dContains_dPop_self]
  · intro k hA hmin hmax
    constructor
    · rw [repairStep3_dGet_other _ _ _ hmin hmax]
      exact dGet_dPop_ne _ _ _ hA
    · rw [repairStep3_dContains_other _ _ _ hmin hmax]
      exact dContains_dPop_ne _ _ _ hA
  · intro hmem
    rw [repairStep3_min_of_contains _ _
        (by rw [dContains_dPop_ne _ _ _ (by decide)]; exact hmem)]
    exact dGet_dPop_ne _ _ _ (by decide)
  · intro hmem
    rw [repairStep3_max_of_contains _ _
        (by rw [dContains_dPop_ne _ _ _ (by decide)]; exact hmem)]
    exact dGet_dPop_ne _ _ _ (by decide)
  · intro hq
    constructor
    · rw [repairStep3, if_neg (by rw [hq]; simp)]
      exact dGet_dPop_ne _ _ _ (by decide)
    · rw [repairStep3, if_neg (by rw [hq]; simp)]
      exact dGet_dPop_ne _ _ _ (by decide)

/-- C10 witness: dropping `"admitted univs" = "IB"` in a concrete filter
set with an unrelated "city" entry and a query not mentioning "ib". -/
theorem claim_C10_witness :
    ∃ F2, repair_llm_filters
        [("admitted univs", PyVal.str "IB"), ("city", PyVal.str "delhi")]
        "x" = Except.ok F2 ∧
      dContains F2 "admitted univs" = false ∧
      (∀ k, ¬(k = "admitted univs") → ¬(k = "ib_min_12") →
        ¬(k = "ib_max_12") →
        dGet F2 k = dGet [("admitted univs", PyVal.str "IB"),
          ("city", PyVal.str "delhi")] k ∧
        dContains F2 k = dContains [("admitted univs", PyVal.str "IB"),
          ("city", PyVal.str "delhi")] k) ∧
      (dContains [("admitted univs", PyVal.str "IB"),
          ("city", PyVal.str "delhi")] "ib_min_12" = true →
        dGet F2 "ib_min_12" = dGet [("admitted univs", PyVal.str "IB"),
          ("city", PyVal.str "delhi")] "ib_min_12") ∧
      (dContains [("admitted univs", PyVal.str "IB"),
          ("city", PyVal.str "delhi")] "ib_max_12" = true →
        dGet F2 "ib_max_12" = dGet [("admitted univs", PyVal.str "IB"),
          ("city", PyVal.str "delhi")] "ib_max_12") ∧
      (pyIn "ib" (pyLower "x") = false →
        dGet F2 "ib_min_12" = dGet [("admitted univs", PyVal.str "IB"),
          ("city", PyVal.str "delhi")] "ib_min_12" ∧
        dGet F2 "ib_max_12" = dGet [("admitted univs", PyVal.str "IB"),
          ("city", PyVal.str "delhi")] "ib_max_12") :=
  claim_C10 [("admitted univs", PyVal.str "IB"), ("city", PyVal.str "delhi")]
    "x" "IB" rfl rfl

/-! ### Claim C6: idempotence of repair_llm_filters -/

theorem repairStep1_id_of_not_str (d : FilterSet)
    (h : ∀ s, ¬ dGet d "admitted univs" = PyVal.str s) :
    repairStep1 d = d := by
  unfold repairStep1
  split_ifs
  · cases hv : dGet d "admitted univs" with
    | str s => exact absurd hv (h s)
    | none => rfl
    | int n => rfl
    | list xs => rfl
  · rfl

theorem repairStep2_id_of_none (d : FilterSet)
    (hv : dGet d "admitted univs" = PyVal.none) :
    repairStep2 d = Except.ok d := by
  unfold repairStep2
  split_ifs
  · rw [hv]
  · rfl

theorem repairStep2_id_of_list (d : FilterSet) (xs : List String)
    (hv : dGet d "admitted univs" = PyVal.list xs)
    (hcf : ((xs.filter (fun v => v != "")).map pyLower).any
      (fun v => COUNTRY_WORDS.contains v) = false) :
    repairStep2 d = Except.ok d := by
  have hc : dContains d "admitted univs" = true :=
    dContains_of_dGet_ne _ _ (by rw [hv]; simp)
  unfold repairStep2
  rw [if_pos hc, hv]
  show Except.ok (repairStep2Core d xs) = Except.ok d
  unfold repairStep2Core
  rw [if_neg (by rw [hcf]; simp)]
  rw [← hv, dSet_self _ _ hc]

theorem repairStep2_admitted (d d2 : FilterSet)
    (h : repairStep2 d = Except.ok d2) :
    dGet d2 "admitted univs" = PyVal.none ∨
      ∃ xs, dGet d2 "admitted univs" = PyVal.list xs ∧
        ((xs.filter (fun v => v != "")).map pyLower).any
          (fun v => COUNTRY_WORDS.contains v) = false := by
  unfold repairStep2 at h
  split_ifs at h with hc
  · cases hv : dGet d "admitted univs" with
    | none =>
        rw [hv] at h; simp only [Except.ok.injEq] at h
        exact Or.inl (by rw [← h, hv])
    | str s =>
        rw [hv] at h; simp only [Except.ok.injEq] at h
        unfold repairStep2Core at h
        split_ifs at h with hcountry
        · refine Or.inl ?_
          rw [← h, dGet_dSet_ne _ _ _ _ (by decide), dGet_dPop_self]
        · refine Or.inr ⟨[s], ?_, by simpa using hcountry⟩
          rw [← h, dGet_dSet_self]
    | int n => rw [hv] at h; exact absurd h (by simp)
    | list xs =>
        rw [hv] at h; simp only [Except.ok.injEq] at h
        unfold repairStep2Core at h
        split_ifs at h with hcountry
        · refine Or.inl ?_
          rw [← h, dGet_dSet_ne _ _ _ _ (by decide), dGet_dPop_self]
        · refine Or.inr ⟨xs, ?_, by simpa using hcountry⟩
          rw [← h, dGet_dSet_self]
  · simp only [Except.ok.injEq] at h
    refine Or.inl ?_
    rw [← h]
    exact dGet_of_not_contains _ _ (by simpa using hc)

theorem repairStep3_idem (q : String) (d : FilterSet) :
    repairStep3 q (repairStep3 q d) = repairStep3 q d := by
  by_cases hq : pyIn "ib" (pyLower q) = true
  · have hmin : dContains (repairStep3 q d) "ib_min_12" = true := by
      unfold repairStep3
      rw [if_pos hq, dContains_dSetdefault_ne _ _ _ _ (by decide)]
      exact dContains_dSetdefault_self _ _ _
    have hmax : dContains (repairStep3 q d) "ib_max_12" = true := by
      unfold repairStep3
      rw [if_pos hq]
      exact dContains_dSetdefault_self _ _ _
    conv in repairStep3 q (repairStep3 q d) => rw [repairStep3]
    rw [if_pos hq, dSetdefault_of_contains _ _ _ hmin,
      dSetdefault_of_contains _ _ _ hmax]
  · have hq' : pyIn "ib" (pyLower q) = false := by simpa using hq
    conv in repairStep3 q (repairStep3 q d) => rw [repairStep3]
    rw [if_neg (by rw [hq']; simp)]

theorem repair_idem_aux (F : FilterSet) (q : String) (F2 : FilterSet)
    (h : repair_llm_filters F q = Except.ok F2) :
    repair_llm_filters F2 q = Except.ok F2 := by
  rcases repair_ok_elim F q F2 h with ⟨d, h2, hF2⟩
  subst hF2
  have hadm := repairStep2_admitted _ _ h2
  have hadm3 : dGet (repairStep3 q d) "admitted univs" =
      dGet d "admitted univs" :=
    repairStep3_dGet_other _ _ _ (by decide) (by decide)
  have hs1 : repairStep1 (repairStep3 q d) = repairStep3 q d := by
    apply repairStep1_id_of_not_str
    intro s hs
    rw [hadm3] at hs
    rcases hadm with h0 | ⟨xs, h0, -⟩ <;> rw [h0] at hs <;> cases hs
  have hs2 : repairStep2 (repairStep3 q d) =
      Except.ok (repairStep3 q d) := by
    rcases hadm with h0 | ⟨xs, h0, hcf⟩
    · exact repairStep2_id_of_none _ (by rw [hadm3, h0])
    · exact repairStep2_id_of_list _ xs (by rw [hadm3, h0]) hcf
  unfold repair_llm_filters
  rw [hs1, hs2]
  show Except.ok (repairStep3 q (repairStep3 q d)) =
    Except.ok (repairStep3 q d)
  rw [repairStep3_idem]

theorem repair_keys_aux (F : FilterSet) (q : String) (F2 : FilterSet)
    (h : repair_llm_filters F q = Except.ok F2) (k : String)
    (hk : dContains F2 k = true) :
    dContains F k = true ∨ k ∈ recognizedKeys := by
  by_cases hr : k ∈ recognizedKeys
  · exact Or.inr hr
  · have hmin : ¬(k = "ib_min_12") := fun he => hr (by rw [he]; decide)
    have hmax : ¬(k = "ib_max_12") := fun he => hr (by rw [he]; decide)
    have hA : ¬(k = "admitted univs") := fun he => hr (by rw [he]; decide)
    have hC : ¬(k = "countries applied to") := fun he => hr (by rw [he]; decide)
    rcases repair_ok_elim F q F2 h with ⟨d, h2, hF2⟩
    subst hF2
    rw [repairStep3_dContains_other q d k hmin hmax] at hk
    rw [repairStep2_dContains_ne _ _ _ h2 hA hC] at hk
    rw [repairStep1_dContains_ne _ _ hA] at hk
    exact Or.inl hk

/-- C6: `repair_llm_filters` is idempotent — re-repairing its own output
(when it succeeded; a raising run stays raising) changes nothing — and
every key of the output was either already in the input or belongs to
the recognized filter-key vocabulary. -/
theorem claim_C6 : ∀ (F : FilterSet) (q : String),
    ((repair_llm_filters F q).bind (fun F2 => repair_llm_filters F2 q) =
      repair_llm_filters F q)
    ∧ (∀ F2, repair_llm_filters F q = Except.ok F2 →
      ∀ k, dContains F2 k = true →
        dContains F k = true ∨ k ∈ recognizedKeys) := by
  intro F q
  constructor
  · cases h : repair_llm_filters F q with
    | error e => rfl
    | ok F2 =>
        show repair_llm_filters F2 q = Except.ok F2
        exact repair_idem_aux F q F2 h
  · intro F2 h k hk
    exact repair_keys_aux F q F2 h k hk

/-- C6 witness: a concrete run where the country move and the IB default
injection both fire; re-repairing the output is a no-op and the newly
added key is in the vocabulary. -/
theorem claim_C6_witness :
    ((repair_llm_filters [("admitted univs", PyVal.str "america")]
        "ib").bind (fun F2 => repair_llm_filters F2 "ib") =
      repair_llm_filters [("admitted univs", PyVal.str "america")] "ib")
    ∧ (dContains [("admitted univs", PyVal.str "america")]
        "countries applied to" = true ∨
      "countries applied to" ∈ recognizedKeys) :=
  ⟨(claim_C6 [("admitted univs", PyVal.str "america")] "ib").1,
   (claim_C6 [("admitted univs", PyVal.str "america")] "ib").2
     [("countries applied to", PyVal.str "america"),
      ("ib_min_12", PyVal.int 24), ("ib_max_12", PyVal.int 45)]
     (by with_unfolding_all rfl) "countries applied to" rfl⟩

/-! ### Engine lemmas -/

theorem filterScan_mem (F : FilterSet) : ∀ (rs out : List Record)
    (r : Record), filterScan F rs = Except.ok out → r ∈ out →
    r ∈ rs ∧ includeRecord F r = Except.ok true := by
  intro rs
  induction rs with
  | nil =>
      intro out r h hm
      simp only [filterScan, Except.ok.injEq] at h
      subst h
      cases hm
  | cons r0 rest ih =>
      intro out r h hm
      unfold filterScan at h
      cases hinc : includeRecord F r0 with
      | error e => rw [hinc] at h; simp at h
      | ok b =>
          rw [hinc] at h
          cases hscan : filterScan F rest with
          | error e => rw [hscan] at h; simp at h
          | ok restOut =>
              rw [hscan] at h
              simp only [Except.ok.injEq] at h
              subst h
              cases b with
              | true =>
                  rcases List.mem_cons.mp hm with hr | hr
                  · constructor
                    · rw [hr]; exact List.mem_cons_self r0 rest
                    · rw [hr]; exact hinc
                  · rcases ih restOut r hscan hr with ⟨h1, h2⟩
                    exact ⟨List.mem_cons_of_mem r0 h1, h2⟩
              | false =>
                  rcases ih restOut r hscan hm with ⟨h1, h2⟩
                  exact ⟨List.mem_cons_of_mem r0 h1, h2⟩

theorem filter_students_mem (F : FilterSet) (records out : List Record)
    (r : Record) (h : filter_students records F = Except.ok out)
    (hm : r ∈ out) : r ∈ records ∧ includeRecord F r = Except.ok true := by
  unfold filter_students at h
  by_cases hconf : (satUsed F && actUsed F) = true
  · rw [if_pos hconf] at h; exact absurd h (by simp)
  · rw [if_neg hconf] at h
    cases hscan : filterScan F records with
    | error e => rw [hscan] at h; simp at h
    | ok l =>
        rw [hscan] at h
        simp only [Except.ok.injEq] at h
        subst h
        exact filterScan_mem F records l r hscan hm

/-! ### Claim C2: the IB board gate -/

/-- C2: when an IB bound is present (not None), every record in the
output of `filter_students` has a string "12th Board" cell that equals
"IBDP" after stripping and upper-casing, and its
"12th grade overall score" cell passes the numeric range test against
the ib bounds. -/
theorem claim_C2 : ∀ (F : FilterSet) (records out : List Record)
    (r : Record), ibGateActive F = true →
    filter_students records F = Except.ok out → r ∈ out →
    (∃ b, dGetD r "12th Board" (PyVal.str "") = PyVal.str b ∧
      pyUpper (pyStrip b) = "IBDP")
    ∧ passes_numeric_filter (dGet r "12th grade overall score")
        (dGet F "ib_min_12") (dGet F "ib_max_12") = Except.ok true := by
  intro F records out r hgate hfs hm
  rcases filter_students_mem F records out r hfs hm with ⟨-, hinc⟩
  unfold includeRecord at hinc
  rw [if_pos hgate] at hinc
  split at hinc
  · rename_i b hboard
    by_cases hib : (pyUpper (pyStrip b) != "IBDP") = true
    · rw [if_pos hib] at hinc; exact absurd hinc (by simp)
    · rw [if_neg hib] at hinc
      have hib' : pyUpper (pyStrip b) = "IBDP" := by simpa using hib
      cases hpass : passes_numeric_filter
          (dGet r "12th grade overall score") (dGet F "ib_min_12")
          (dGet F "ib_max_12") with
      | error e => rw [hpass] at hinc; simp at hinc
      | ok pb =>
          rw [hpass] at hinc
          cases pb with
          | false => simp at hinc
          | true => exact ⟨⟨b, hboard, hib'⟩, rfl⟩
  · exact absurd hinc (by simp)

/-- C2 witness: the end-to-end scenario of the spec — with
`ib_min_12 = 35`, the IBDP record with score 38 is kept and satisfies
the gate conclusions. -/
theorem claim_C2_witness :
    (∃ b, dGetD [("12th Board", PyVal.str "IBDP"),
        ("12th grade overall score", PyVal.str "38"),
        ("City of Graduation", PyVal.str "Delhi")]
        "12th Board" (PyVal.str "") = PyVal.str b ∧
      pyUpper (pyStrip b) = "IBDP")
    ∧ passes_numeric_filter
        (dGet [("12th Board", PyVal.str "IBDP"),
          ("12th grade overall score", PyVal.str "38"),
          ("City of Graduation", PyVal.str "Delhi")]
          "12th grade overall score")
        (dGet [("ib_min_12", PyVal.int 35)] "ib_min_12")
        (dGet [("ib_min_12", PyVal.int 35)] "ib_max_12") = Except.ok true :=
  claim_C2 [("ib_min_12", PyVal.int 35)]
    [[("12th Board", PyVal.str "IBDP"),
      ("12th grade overall score", PyVal.str "38"),
      ("City of Graduation", PyVal.str "Delhi")],
     [("12th Board", PyVal.str "CBSE"),
      ("12th grade overall score", PyVal.str "95"),
      ("City of Graduation", PyVal.str "Delhi")]]
    [[("12th Board", PyVal.str "IBDP"),
      ("12th grade overall score", PyVal.str "38"),
      ("City of Graduation", PyVal.str "Delhi")]]
    [("12th Board", PyVal.str "IBDP"),
     ("12th grade overall score", PyVal.str "38"),
     ("City of Graduation", PyVal.str "Delhi")]
    rfl rfl (by decide)

/-! ### Claim C9: the city filter -/

/-- C9, counterexample: the claim says the comparison trims surrounding
whitespace on both sides, but the code compares the raw lower-cased
strings: a record whose city is "Delhi " (trailing space) is excluded by
the filter "delhi" although the two sides are equal after trimming and
lower-casing. -/
theorem claim_C9_counterexample :
    filter_students [[("City of Graduation", PyVal.str "Delhi ")]]
        [("city", PyVal.str "delhi")] = Except.ok []
    ∧ pyLower (pyStrip "Delhi ") = pyLower (pyStrip "delhi") := ⟨rfl, rfl⟩

/-- C9 (amended): for a city filter with a string value, a record with a
string "City of Graduation" cell (defaulting to the empty string) is
included iff the two values are equal after lower-casing only — no
whitespace trimming and no fuzzy matching. -/
theorem claim_C9_amended : ∀ (r : Record) (v c : String),
    dGetD r "City of Graduation" (PyVal.str "") = PyVal.str c →
    includeRecord [("city", PyVal.str v)] r =
      Except.ok (pyLower c == pyLower v)
    ∧ filter_students [r] [("city", PyVal.str v)] =
      Except.ok (if pyLower c == pyLower v then [r] else []) := by
  intro r v c h
  have hstep : includeRecord [("city", PyVal.str v)] r =
      otherFiltersLoop r [("city", PyVal.str v)] := rfl
  have hinc : includeRecord [("city", PyVal.str v)] r =
      Except.ok (pyLower c == pyLower v) := by
    rw [hstep]
    have hloop : otherFiltersLoop r [("city", PyVal.str v)] =
        (match dGetD r "City of Graduation" (PyVal.str ""),
            PyVal.str v with
          | PyVal.str c, PyVal.str v =>
              if pyLower c != pyLower v then Except.ok false
              else otherFiltersLoop r []
          | _, _ => Except.error ()) := rfl
    rw [hloop, h]
    cases hb : (pyLower c == pyLower v) with
    | true =>
        have hne : (pyLower c != pyLower v) = false := by
          simp only [bne]; rw [hb]; rfl
        simp only [hne, Bool.false_eq_true, if_false]
        rfl
    | false =>
        have hne : (pyLower c != pyLower v) = true := by
          simp only [bne]; rw [hb]; rfl
        simp only [hne, if_true]
  refine ⟨hinc, ?_⟩
  have hsa : (satUsed [("city", PyVal.str v)] &&
      actUsed [("city", PyVal.str v)]) = false := rfl
  unfold filter_students
  rw [if_neg (by rw [hsa]; simp)]
  have hscan : filterScan [("city", PyVal.str v)] [r] =
      Except.ok (if pyLower c == pyLower v then [r] else []) := by
    unfold filterScan
    rw [hinc]
    cases hb : (pyLower c == pyLower v) <;> rfl
  rw [hscan]

/-- C9 witness: a record whose city matches up to case is included. -/
theorem claim_C9_witness :
    includeRecord [("city", PyVal.str "delhi")]
        [("City of Graduation", PyVal.str "Delhi")] =
      Except.ok (pyLower "Delhi" == pyLower "delhi")
    ∧ filter_students [[("City of Graduation", PyVal.str "Delhi")]]
        [("city", PyVal.str "delhi")] =
      Except.ok (if pyLower "Delhi" == pyLower "delhi"
        then [[("City of Graduation", PyVal.str "Delhi")]] else []) :=
  claim_C9_amended [("City of Graduation", PyVal.str "Delhi")]
    "delhi" "Delhi" rfl

/-! ### Claim C5: unrecognized keys -/

/-- C5, counterexample: an unrecognized key survives repair and
normalization unchanged, and `filter_students` fuzzy-matches it against
the same-named record column: the claim's whitelist invariant does not
hold for this code. -/
theorem claim_C5_counterexample :
    repair_llm_filters [("hobby", PyVal.str "chess")] "x" =
        Except.ok [("hobby", PyVal.str "chess")]
    ∧ normalize_filters [("hobby", PyVal.str "chess")] =
        [("hobby", PyVal.str "chess")]
    ∧ recognizedKeys.contains "hobby" = false
    ∧ filter_students [[("hobby", PyVal.str "chess club")]]
        [("hobby", PyVal.str "chess")] =
        Except.ok [[("hobby", PyVal.str "chess club")]] :=
  ⟨rfl, rfl, rfl, rfl⟩

theorem beqStr_comm (a b : String) : (a == b) = (b == a) := by
  by_cases h : a = b
  · rw [h]
  · have h' : ¬(b = a) := fun hh => h hh.symm
    simp [h, h']

theorem dContains_eq_any (d : Dict) (k : String) :
    dContains d k = d.any (fun kv => kv.1 == k) := by
  induction d with
  | nil => rfl
  | cons kv rest ih => simp [dContains, ih]

theorem normStep_shape (acc : Dict) (kv : String × PyVal) :
    ∃ v, normStep acc kv = dSet acc kv.1 v := by
  rcases kv with ⟨k, val⟩
  cases val <;> exact ⟨_, rfl⟩

theorem normalize_keys_aux (k : String) : ∀ (F : FilterSet) (acc : Dict),
    dContains (F.foldl normStep acc) k =
      (dContains acc k || F.any (fun kv => kv.1 == k)) := by
  intro F
  induction F with
  | nil => intro acc; simp
  | cons kv rest ih =>
      intro acc
      simp only [List.foldl_cons, List.any_cons]
      rw [ih (normStep acc kv)]
      rcases normStep_shape acc kv with ⟨v, hv⟩
      rw [hv, dContains_dSet, beqStr_comm k kv.1]
      cases dContains acc k <;> cases (kv.1 == k) <;> simp

/-- C5 (amended): `normalize_filters` drops no keys — it preserves the
key set exactly, so unrecognized keys flow through — and
`filter_students` fuzzy-matches such a key against the same-named record
column (here "hobby"), including the matching record and excluding the
non-matching one. -/
theorem claim_C5_amended :
    (∀ (F : FilterSet) (k : String),
      dContains (normalize_filters F) k = dContains F k)
    ∧ filter_students
        [[("hobby", PyVal.str "chess club")], [("hobby", PyVal.str "reading")]]
        [("hobby", PyVal.str "chess")] =
        Except.ok [[("hobby", PyVal.str "chess club")]] := by
  constructor
  · intro F k
    unfold normalize_filters
    rw [normalize_keys_aux k F [], dContains_eq_any F k]
    rfl
  · set_option maxRecDepth 100000 in with_unfolding_all rfl

end Mentorly
